import Mathlib

/-!
Shallow embedding of the caching core of the web-rag repository:
`src/src/infrastructure/caching/cache_service.py` (class `CacheService`) and
`src/src/infrastructure/caching/query_cache.py` (class `QueryCache`).

Modelling conventions, chosen once for the whole file:

* Python values stored in the cache are modelled by the inductive `PyVal`
  (`None`, booleans, integers, strings, lists, string-keyed dicts).  Python
  truthiness is `PyVal.truthy`.
* Wall-clock time (`datetime.now()`) is an explicit `now : Nat` tick passed to
  every operation; `datetime.isoformat`/`fromisoformat` round-trips are
  modelled as the identity on ticks (the tick is carried through serialized
  records unchanged).  TTL values are `Int` (Python ints can be negative).
* `pickle.dumps`-based size estimation (`CacheService._calculate_size`) is not
  computable from the value alone in any faithful way, so the size probe is an
  abstract parameter `calculate_size : PyVal -> Nat` carried in the
  configuration record; concrete instantiations fix it for witnesses.
* Cryptographic digests (`hashlib.sha256(...).hexdigest()` and
  `hashlib.md5(...).hexdigest()`) are modelled as injective encodings of the
  accumulated input bytes: the digest IS the accumulated input string.  Every
  claim below depends only on equality or inequality of digests, never on
  their width or alphabet, and the code itself never inspects digests beyond
  using them as dictionary keys, so a collision-free abstraction is the
  faithful reading (a real SHA-256 collision is outside the spec's intent).
* Python's `OrderedDict` is an association list in insertion order (front =
  oldest); the statistics counters are `Int`, mirroring unbounded Python ints
  (several code paths subtract).
* The two `while` loops of `_ensure_capacity` can fail to terminate in the
  source (for example `max_size = 0` with an empty cache spins forever, since
  `_evict_one` is a no-op on an empty cache); they are therefore modelled with
  explicit fuel, `Option.none` meaning the loop did not reach its exit
  condition within the given fuel.  `put` supplies fuel `length + 1` per loop,
  which is shown sufficient whenever `1 <= max_size`.
* Logging and metrics calls are pure side channels (no data flows back into
  the cache) and are dropped.
-/

/-- Model of a Python runtime value as stored in the cache. -/
inductive PyVal where
  | none : PyVal
  | bool (b : Bool) : PyVal
  | int (n : Int) : PyVal
  | str (s : String) : PyVal
  | list (l : List PyVal) : PyVal
  | dict (l : List (String × PyVal)) : PyVal

/-- Python truthiness (`if value:`) for the modelled values. -/
def PyVal.truthy : PyVal → Bool
  | .none => false
  | .bool b => b
  | .int n => n != 0
  | .str s => !s.isEmpty
  | .list l => !l.isEmpty
  | .dict l => !l.isEmpty

/-- CacheStrategy enumeration from cache_service.py. -/
inductive CacheStrategy where
  | lru : CacheStrategy
  | lfu : CacheStrategy
  | fifo : CacheStrategy
  | ttl : CacheStrategy
deriving DecidableEq

/-- CacheEntry dataclass from cache_service.py (times are integer ticks). -/
structure CacheEntry where
  key : String
  value : PyVal
  created_at : Nat
  last_accessed : Nat
  access_count : Nat := 0
  ttl : Option Int := Option.none
  size : Nat := 0
  metadata : List (String × PyVal) := []

/-- CacheEntry.is_expired: `(now - created_at).total_seconds() > ttl`. -/
def CacheEntry.is_expired (e : CacheEntry) (now : Nat) : Bool :=
  match e.ttl with
  | Option.none => false
  | Option.some t => if ((now : Int) - (e.created_at : Int)) > t then true else false

/-- CacheStats dataclass: counters are Python ints. -/
structure CacheStats where
  total_size : Int := 0
  entry_count : Int := 0
  hit_count : Int := 0
  miss_count : Int := 0
  eviction_count : Int := 0
  total_requests : Int := 0

/-- Construction-time configuration of a CacheService instance.
`max_memory` is already in bytes (`max_memory_mb * 1024 * 1024`). -/
structure CacheConfig where
  max_size : Int
  max_memory : Int
  strategy : CacheStrategy
  default_ttl : Option Int
  calculate_size : PyVal → Nat

/-- Mutable state of a CacheService: the ordered key→entry map and stats. -/
structure CacheState where
  cache : List (String × CacheEntry)
  stats : CacheStats

/-- Association-list lookup, first match wins (Python dict access). -/
def alookup {β : Type} : List (String × β) → String → Option β
  | [], _ => Option.none
  | (k', v) :: rest, k => if k' = k then Option.some v else alookup rest k

/-- Association-list removal of the first binding of a key (Python `del`). -/
def aerase {β : Type} : List (String × β) → String → List (String × β)
  | [], _ => []
  | (k', v) :: rest, k => if k' = k then rest else (k', v) :: aerase rest k

/-- Association-list in-place value replacement at a key. -/
def aupdate {β : Type} : List (String × β) → String → β → List (String × β)
  | [], _, _ => []
  | (k', v) :: rest, k, v' => if k' = k then (k', v') :: rest else (k', v) :: aupdate rest k v'

/-- OrderedDict.move_to_end: move an existing key to the most-recent end. -/
def move_to_end (l : List (String × CacheEntry)) (k : String) : List (String × CacheEntry) :=
  match alookup l k with
  | Option.none => l
  | Option.some e => aerase l k ++ [(k, e)]

/-- Python `ttl or default` on an optional int: `None` and `0` are falsy. -/
def pyOrTtl (ttl : Option Int) (d : Option Int) : Option Int :=
  match ttl with
  | Option.none => d
  | Option.some t => if t = 0 then d else Option.some t

/-- Python `ttl or n` where the fallback is a literal int. -/
def pyOrInt (ttl : Option Int) (d : Int) : Int :=
  match ttl with
  | Option.none => d
  | Option.some t => if t = 0 then d else t

/-- CacheService.get: records the request, returns `PyVal.none` on a miss or
on lazy expiry (removing the expired entry; the source decrements
`entry_count` but not `total_size` there), bumps access info and LRU
position on a hit. -/
def CacheService.get (cfg : CacheConfig) (now : Nat) (key : String) (s : CacheState) :
    PyVal × CacheState :=
  let stats := { s.stats with total_requests := s.stats.total_requests + 1 }
  match alookup s.cache key with
  | Option.none =>
      (PyVal.none, { s with stats := { stats with miss_count := stats.miss_count + 1 } })
  | Option.some entry =>
      if entry.is_expired now then
        (PyVal.none,
          { cache := aerase s.cache key,
            stats := { stats with
              miss_count := stats.miss_count + 1,
              entry_count := stats.entry_count - 1 } })
      else
        let entry' := { entry with last_accessed := now, access_count := entry.access_count + 1 }
        let cache' := aupdate s.cache key entry'
        let cache'' := if cfg.strategy = CacheStrategy.lru then move_to_end cache' key else cache'
        (entry.value,
          { cache := cache'',
            stats := { stats with hit_count := stats.hit_count + 1 } })

/-- CacheService._evict_one: remove one victim according to the strategy and
update the three counters; a no-op on an empty cache. -/
def lfu_victim : List (String × CacheEntry) → Option (String × CacheEntry)
  | [] => Option.none
  | (k, e) :: rest =>
      match lfu_victim rest with
      | Option.none => Option.some (k, e)
      | Option.some (k', e') =>
          if e'.access_count < e.access_count then Option.some (k', e') else Option.some (k, e)

def CacheService.evict_one (cfg : CacheConfig) (now : Nat) (s : CacheState) : CacheState :=
  match s.cache with
  | [] => s
  | (k0, e0) :: rest =>
      let victim : String × CacheEntry :=
        match cfg.strategy with
        | .lru => (k0, e0)
        | .fifo => (k0, e0)
        | .lfu => (lfu_victim ((k0, e0) :: rest)).getD (k0, e0)
        | .ttl =>
            match List.find? (fun p => p.2.is_expired now) ((k0, e0) :: rest) with
            | Option.some p => p
            | Option.none => (k0, e0)
      { cache := aerase s.cache victim.1,
        stats := { s.stats with
          total_size := s.stats.total_size - victim.2.size,
          entry_count := s.stats.entry_count - 1,
          eviction_count := s.stats.eviction_count + 1 } }

/-- First while loop of _ensure_capacity: `while len(cache) >= max_size`. -/
def capLoop1 (cfg : CacheConfig) (now : Nat) : Nat → CacheState → Option CacheState
  | 0, s =>
      if (s.cache.length : Int) ≥ cfg.max_size then Option.none else Option.some s
  | fuel + 1, s =>
      if (s.cache.length : Int) ≥ cfg.max_size then
        capLoop1 cfg now fuel (CacheService.evict_one cfg now s)
      else Option.some s

/-- Second while loop: `while total_size + new_size > max_memory and cache`. -/
def capLoop2 (cfg : CacheConfig) (now : Nat) (newSize : Nat) :
    Nat → CacheState → Option CacheState
  | 0, s =>
      if s.stats.total_size + (newSize : Int) > cfg.max_memory ∧ s.cache.isEmpty = false then Option.none
      else Option.some s
  | fuel + 1, s =>
      if s.stats.total_size + (newSize : Int) > cfg.max_memory ∧ s.cache.isEmpty = false then
        capLoop2 cfg now newSize fuel (CacheService.evict_one cfg now s)
      else Option.some s

/-- CacheService._ensure_capacity: both loops in sequence, with fuel
`length + 1` each; `Option.none` models source-level divergence. -/
def CacheService.ensure_capacity (cfg : CacheConfig) (now : Nat) (newSize : Nat)
    (s : CacheState) : Option CacheState :=
  match capLoop1 cfg now (s.cache.length + 1) s with
  | Option.none => Option.none
  | Option.some s1 => capLoop2 cfg now newSize (s1.cache.length + 1) s1

/-- CacheService.put: size probe, oversize rejection, replacement of an
existing key, capacity enforcement, insertion at the most-recent end. -/
def CacheService.put (cfg : CacheConfig) (now : Nat) (key : String) (value : PyVal)
    (ttl : Option Int) (metadata : Option (List (String × PyVal))) (s : CacheState) :
    Option (Bool × CacheState) :=
  let size := cfg.calculate_size value
  if (size : Int) > cfg.max_memory then Option.some (false, s)
  else
    let s1 :=
      match alookup s.cache key with
      | Option.none => s
      | Option.some old =>
          { cache := aerase s.cache key,
            stats := { s.stats with
              total_size := s.stats.total_size - old.size,
              entry_count := s.stats.entry_count - 1 } }
    let entry : CacheEntry :=
      { key := key, value := value, created_at := now, last_accessed := now,
        access_count := 0, ttl := pyOrTtl ttl cfg.default_ttl, size := size,
        metadata := metadata.getD [] }
    match CacheService.ensure_capacity cfg now size s1 with
    | Option.none => Option.none
    | Option.some s2 =>
        Option.some (true,
          { cache := s2.cache ++ [(key, entry)],
            stats := { s2.stats with
              entry_count := s2.stats.entry_count + 1,
              total_size := s2.stats.total_size + (size : Int) } })

/-- CacheService.delete. -/
def CacheService.delete (key : String) (s : CacheState) : Bool × CacheState :=
  match alookup s.cache key with
  | Option.none => (false, s)
  | Option.some e =>
      (true,
        { cache := aerase s.cache key,
          stats := { s.stats with
            total_size := s.stats.total_size - e.size,
            entry_count := s.stats.entry_count - 1 } })

/-- CacheService.clear. -/
def CacheService.clear (s : CacheState) : CacheState :=
  { cache := [],
    stats := { s.stats with entry_count := 0, total_size := 0 } }

/-- CacheService._cleanup_expired: the background sweep body. -/
def CacheService.cleanup_expired (now : Nat) (s : CacheState) : CacheState :=
  let expired := s.cache.filter (fun p => p.2.is_expired now)
  expired.foldl
    (fun acc p =>
      { cache := aerase acc.cache p.1,
        stats := { acc.stats with
          total_size := acc.stats.total_size - p.2.size,
          entry_count := acc.stats.entry_count - 1,
          eviction_count := acc.stats.eviction_count + 1 } })
    s

/-- CacheService.__init__: records the parameters and starts empty.  The
source performs no validation whatsoever, so the only reachable outcome is
`Except.ok`; the `Except` codomain mirrors the fact that a Python
constructor could in principle raise. -/
def CacheService.init (max_size : Int) (max_memory_mb : Int) (strategy : CacheStrategy)
    (default_ttl : Option Int) (calculate_size : PyVal → Nat) :
    Except String (CacheConfig × CacheState) :=
  Except.ok
    ({ max_size := max_size, max_memory := max_memory_mb * 1024 * 1024,
       strategy := strategy, default_ttl := default_ttl,
       calculate_size := calculate_size },
     { cache := [], stats := {} })

/-- Sum of the `size` fields of a list of entries. -/
def listSizeSum : List (String × CacheEntry) → Int
  | [] => 0
  | p :: rest => (p.2.size : Int) + listSizeSum rest

/-- Sum of the `size` fields of the stored entries (the quantity
`stats.total_size` is supposed to track). -/
def CacheState.sizeSum (s : CacheState) : Int :=
  listSizeSum s.cache

/-- Python whitespace recognised by `str.strip()` (ASCII fragment). -/
def isPySpace (c : Char) : Bool :=
  c = ' ' || c = '\t' || c = '\n' || c = '\r' || c = '\x0b' || c = '\x0c'

/-- Python `str.strip()`. -/
def pyStrip (s : String) : String :=
  ⟨((s.data.dropWhile isPySpace).reverse.dropWhile isPySpace).reverse⟩

/-- Python `str.lower()` (ASCII fragment of Unicode lowercasing). -/
def pyLower (s : String) : String :=
  ⟨s.data.map Char.toLower⟩

/-- md5 hexdigest, modelled as the injective identity encoding (see the
header comment): digest equality coincides with input equality. -/
def md5_hexdigest (s : String) : String := s

/-- sha256 hexdigest of all bytes fed to the hasher, same modelling. -/
def sha256_hexdigest (s : String) : String := s

/-- Insertion sort by key for `json.dumps(..., sort_keys=True)`. -/
def insertSorted (p : String × String) : List (String × String) → List (String × String)
  | [] => [p]
  | q :: rest => if p.1 < q.1 then p :: q :: rest else q :: insertSorted p rest

def sortByKey (l : List (String × String)) : List (String × String) :=
  l.foldr insertSorted []

def jsonPair (p : String × String) : String :=
  "\"" ++ p.1 ++ "\": \"" ++ p.2 ++ "\""

def jsonJoin : List String → String
  | [] => ""
  | [x] => x
  | x :: xs => x ++ ", " ++ jsonJoin xs

/-- json.dumps with sort_keys=True.  The extra-params dict is modelled with
string values (the repository never passes `extra_params`; only the
truthiness check and the injection into the hash input matter here). -/
def json_dumps_sorted (l : List (String × String)) : String :=
  "\x7b" ++ jsonJoin ((sortByKey l).map jsonPair) ++ "\x7d"

/-- QueryCache.get_query_hash: normalized query, then model name, then the
md5 of a non-empty context, then the sorted JSON of truthy extra params, fed
to sha256.  Python truthiness: empty string and empty dict are falsy. -/
def QueryCache.get_query_hash (query model_name context : String)
    (extra_params : Option (List (String × String))) : String :=
  let normalized_query := pyLower (pyStrip query)
  sha256_hexdigest
    (normalized_query ++ model_name
      ++ (if context = "" then "" else md5_hexdigest context)
      ++ (match extra_params with
          | Option.none => ""
          | Option.some l => if l.isEmpty then "" else json_dumps_sorted l))

/-- QueryCacheEntry as rebuilt by get_query_result: the fields are carried
as raw Python values, exactly as the source moves them between dicts. -/
structure QueryCacheEntry where
  query_hash : PyVal
  original_query : PyVal
  response : PyVal
  retrieved_chunks : PyVal
  context_used : PyVal
  model_name : PyVal
  response_time : PyVal
  cached_at : PyVal
  metadata : PyVal

/-- Python subscript `d[k]` on a value: fails (KeyError/TypeError) unless a
dict containing the key. -/
def dictGet (v : PyVal) (k : String) : Option PyVal :=
  match v with
  | .dict l => alookup l k
  | _ => Option.none

/-- Reconstruction of a QueryCacheEntry from the cached dict; any missing
key raises in the source and is caught by the surrounding `except`,
modelled as `Option.none`.  `metadata` uses `.get` with default `{}`. -/
def rebuild_query_entry (d : PyVal) : Option QueryCacheEntry := do
  let qh ← dictGet d "query_hash"
  let oq ← dictGet d "original_query"
  let resp ← dictGet d "response"
  let rc ← dictGet d "retrieved_chunks"
  let cu ← dictGet d "context_used"
  let mn ← dictGet d "model_name"
  let rt ← dictGet d "response_time"
  let ca ← dictGet d "cached_at"
  pure
    { query_hash := qh, original_query := oq, response := resp,
      retrieved_chunks := rc, context_used := cu, model_name := mn,
      response_time := rt, cached_at := ca,
      metadata := (dictGet d "metadata").getD (PyVal.dict []) }

/-- QueryCache.cache_query_result: stores the entry dict under
`"query:" + hash` with `ttl or 1800`, and on success additionally the
lighter retrieval record under `"retrieval:" + hash`, also with
`ttl or 1800`; the hash is computed without extra params. -/
def QueryCache.cache_query_result (cfg : CacheConfig) (now : Nat)
    (query response : String) (retrieved_chunks : List PyVal)
    (context_used model_name : String) (response_time : Int)
    (metadata : Option (List (String × PyVal))) (ttl : Option Int)
    (s : CacheState) : Option (Bool × CacheState) :=
  let query_hash := QueryCache.get_query_hash query model_name context_used Option.none
  let entry_dict : PyVal := PyVal.dict
    [("query_hash", PyVal.str query_hash),
     ("original_query", PyVal.str query),
     ("response", PyVal.str response),
     ("retrieved_chunks", PyVal.list retrieved_chunks),
     ("context_used", PyVal.str context_used),
     ("model_name", PyVal.str model_name),
     ("response_time", PyVal.int response_time),
     ("cached_at", PyVal.int (now : Int)),
     ("metadata", PyVal.dict (metadata.getD []))]
  let query_key := "query:" ++ query_hash
  match CacheService.put cfg now query_key entry_dict (Option.some (pyOrInt ttl 1800))
      Option.none s with
  | Option.none => Option.none
  | Option.some (success, s1) =>
      if success then
        match CacheService.put cfg now ("retrieval:" ++ query_hash)
            (PyVal.dict
              [("chunks", PyVal.list retrieved_chunks),
               ("context", PyVal.str context_used),
               ("query", PyVal.str query)])
            (Option.some (pyOrInt ttl 1800)) Option.none s1 with
        | Option.none => Option.none
        | Option.some (_, s2) => Option.some (success, s2)
      else Option.some (success, s1)

/-- QueryCache.get_query_result: hash with the supplied context and extra
params, read `"query:" + hash`, treat any falsy payload as a miss. -/
def QueryCache.get_query_result (cfg : CacheConfig) (now : Nat)
    (query model_name context : String) (extra_params : Option (List (String × String)))
    (s : CacheState) : Option QueryCacheEntry × CacheState :=
  let query_hash := QueryCache.get_query_hash query model_name context extra_params
  let r := CacheService.get cfg now ("query:" ++ query_hash) s
  if r.1.truthy then (rebuild_query_entry r.1, r.2)
  else (Option.none, r.2)

/-- QueryCache.cache_retrieval_result: keyed by the sha256 of the
normalized query alone, default ttl `ttl or 3600`. -/
def QueryCache.cache_retrieval_result (cfg : CacheConfig) (now : Nat)
    (query : String) (retrieved_chunks : List PyVal) (retrieval_time : Int)
    (ttl : Option Int) (s : CacheState) : Option (Bool × CacheState) :=
  let query_hash := sha256_hexdigest (pyLower (pyStrip query))
  CacheService.put cfg now ("retrieval:" ++ query_hash)
    (PyVal.dict
      [("query", PyVal.str query),
       ("chunks", PyVal.list retrieved_chunks),
       ("retrieval_time", PyVal.int retrieval_time),
       ("cached_at", PyVal.int (now : Int))])
    (Option.some (pyOrInt ttl 3600)) Option.none s

/-- QueryCache.get_retrieval_result: returns the cached payload unchanged
(the source returns `cached_data` whether truthy or falsy). -/
def QueryCache.get_retrieval_result (cfg : CacheConfig) (now : Nat) (query : String)
    (s : CacheState) : PyVal × CacheState :=
  let query_hash := sha256_hexdigest (pyLower (pyStrip query))
  CacheService.get cfg now ("retrieval:" ++ query_hash) s

/-- QueryCache.invalidate_query: recomputes the hash with empty context and
no extra params, deletes both the query and the retrieval entry. -/
def QueryCache.invalidate_query (cfg : CacheConfig) (query model_name : String)
    (s : CacheState) : Bool × CacheState :=
  let query_hash := QueryCache.get_query_hash query model_name "" Option.none
  let r1 := CacheService.delete ("query:" ++ query_hash) s
  let r2 := CacheService.delete ("retrieval:" ++ query_hash) r1.2
  (r1.1 || r2.1, r2.2)

/-- On-disk form of one entry as written by CacheService._save_cache (`size`
is intentionally absent: the load path recomputes it). -/
structure SavedEntry where
  value : PyVal
  created_at : Nat
  last_accessed : Nat
  access_count : Nat
  ttl : Option Int
  metadata : List (String × PyVal)

/-- On-disk snapshot: non-expired entries plus the four persisted stats. -/
structure SavedCache where
  entries : List (String × SavedEntry)
  hit_count : Int
  miss_count : Int
  eviction_count : Int
  total_requests : Int

/-- Projection of one live entry to its on-disk form (the dict literal
built inside _save_cache). -/
def save_entry (e : CacheEntry) : SavedEntry :=
  { value := e.value, created_at := e.created_at, last_accessed := e.last_accessed,
    access_count := e.access_count, ttl := e.ttl, metadata := e.metadata }

/-- CacheService._save_cache: serialize the non-expired entries and the
aggregate counters (JSON encoding modelled as the identity). -/
def CacheService.save_cache (now : Nat) (s : CacheState) : SavedCache :=
  { entries := (s.cache.filter (fun p => !(p.2.is_expired now))).map
      (fun p => (p.1, save_entry p.2)),
    hit_count := s.stats.hit_count, miss_count := s.stats.miss_count,
    eviction_count := s.stats.eviction_count, total_requests := s.stats.total_requests }

/-- Entry reconstruction during _load_cache: `size` recomputed via the
probe, every other field restored from the file. -/
def reload_entry (cfg : CacheConfig) (k : String) (d : SavedEntry) : CacheEntry :=
  { key := k, value := d.value, created_at := d.created_at,
    last_accessed := d.last_accessed, access_count := d.access_count,
    ttl := d.ttl, size := cfg.calculate_size d.value, metadata := d.metadata }

/-- Loop body of _load_cache for one saved entry: skip it when already
expired at the current clock, otherwise insert it and bump the counters. -/
def load_step (cfg : CacheConfig) (now : Nat) (acc : CacheState)
    (p : String × SavedEntry) : CacheState :=
  let entry := reload_entry cfg p.1 p.2
  if entry.is_expired now then acc
  else
    { cache := acc.cache ++ [(p.1, entry)],
      stats := { acc.stats with
        entry_count := acc.stats.entry_count + 1,
        total_size := acc.stats.total_size + (entry.size : Int) } }

/-- CacheService._load_cache: restore the four persisted counters, then
insert every saved entry that is not already expired at the current clock,
bumping `entry_count` and `total_size`. -/
def CacheService.load_cache (cfg : CacheConfig) (now : Nat) (saved : SavedCache)
    (s : CacheState) : CacheState :=
  let s0 : CacheState :=
    { s with stats := { s.stats with
        hit_count := saved.hit_count, miss_count := saved.miss_count,
        eviction_count := saved.eviction_count,
        total_requests := saved.total_requests } }
  saved.entries.foldl (load_step cfg now) s0

/-! Basic lemmas about the association-list primitives and strings. -/

theorem string_data_append (a b : String) : (a ++ b).data = a.data ++ b.data := by
  cases a; cases b; rfl

theorem string_eq_of_data {a b : String} (h : a.data = b.data) : a = b := by
  cases a; cases b; exact congrArg String.mk h

theorem alookup_nil {β : Type} (k : String) :
    alookup ([] : List (String × β)) k = Option.none := rfl

theorem alookup_cons_self {β : Type} (k : String) (v : β) (l : List (String × β)) :
    alookup ((k, v) :: l) k = Option.some v := by
  simp [alookup]

theorem alookup_cons_ne {β : Type} {k' k : String} (h : k' ≠ k) (v : β)
    (l : List (String × β)) : alookup ((k', v) :: l) k = alookup l k := by
  simp [alookup, h]

theorem aerase_cons_self {β : Type} (k : String) (v : β) (l : List (String × β)) :
    aerase ((k, v) :: l) k = l := by
  simp [aerase]

theorem aerase_cons_ne {β : Type} {k' k : String} (h : k' ≠ k) (v : β)
    (l : List (String × β)) : aerase ((k', v) :: l) k = (k', v) :: aerase l k := by
  simp [aerase, h]

/-- Keys in the `"query:"` namespace never collide with keys in the
`"retrieval:"` namespace (first byte differs). -/
theorem query_key_ne_retrieval_key (h h' : String) :
    ("query:" ++ h) ≠ ("retrieval:" ++ h') := by
  intro heq
  have hd : ("query:" ++ h).data = ("retrieval:" ++ h').data := congrArg String.data heq
  rw [string_data_append, string_data_append] at hd
  have h1 : "query:".data = ['q', 'u', 'e', 'r', 'y', ':'] := rfl
  have h2 : "retrieval:".data = ['r', 'e', 't', 'r', 'i', 'e', 'v', 'a', 'l', ':'] := rfl
  rw [h1, h2] at hd
  simp at hd

/-- The empty starting state of a freshly constructed cache. -/
def emptyState : CacheState := { cache := [], stats := {} }

/-! Claim C3: oversize rejection leaves the state untouched. -/

/-- C3: for every configuration and state, a `put` whose probed size exceeds
`max_memory` returns `false` and returns the state completely unchanged (all
entries, `entry_count`, `total_size`); the oversize check precedes every
mutation in the source. -/
theorem c3_oversize_rejection (cfg : CacheConfig) (now : Nat) (key : String) (v : PyVal)
    (ttl : Option Int) (md : Option (List (String × PyVal))) (s : CacheState)
    (h : (cfg.calculate_size v : Int) > cfg.max_memory) :
    CacheService.put cfg now key v ttl md s = Option.some (false, s) := by
  unfold CacheService.put
  rw [if_pos h]

/-- Configuration whose probe makes every value oversized (10 > 5 bytes). -/
def cfgOversize : CacheConfig :=
  { max_size := 100, max_memory := 5, strategy := CacheStrategy.lru,
    default_ttl := Option.none, calculate_size := fun _ => 10 }

theorem c3_oversize_rejection_witness :
    CacheService.put cfgOversize 0 "k" (PyVal.int 7) Option.none Option.none emptyState =
      Option.some (false, emptyState) :=
  c3_oversize_rejection cfgOversize 0 "k" (PyVal.int 7) Option.none Option.none emptyState
    (by decide)

/-! Claim C4: the LRU eviction-order scenario. -/

/-- LRU configuration with maxEntries = 2 for Scenario A. -/
def cfgScenarioA : CacheConfig :=
  { max_size := 2, max_memory := 100 * 1024 * 1024, strategy := CacheStrategy.lru,
    default_ttl := Option.none, calculate_size := fun _ => 8 }

/-- Scenario A run: put(A,1); put(B,2); get(A); put(C,3); then observe
get(B), get(A), get(C) and the eviction counter. -/
def scenario_a : Option (PyVal × PyVal × PyVal × Int) := do
  let (_, s1) ← CacheService.put cfgScenarioA 0 "A" (PyVal.int 1) Option.none Option.none
    emptyState
  let (_, s2) ← CacheService.put cfgScenarioA 0 "B" (PyVal.int 2) Option.none Option.none s1
  let (_, s3) := CacheService.get cfgScenarioA 0 "A" s2
  let (_, s4) ← CacheService.put cfgScenarioA 0 "C" (PyVal.int 3) Option.none Option.none s3
  let (vb, s5) := CacheService.get cfgScenarioA 0 "B" s4
  let (va, s6) := CacheService.get cfgScenarioA 0 "A" s5
  let (vc, s7) := CacheService.get cfgScenarioA 0 "C" s6
  pure (vb, va, vc, s7.stats.eviction_count)

/-- C4: with maxEntries = 2 under LRU, put(A,1); put(B,2); get(A); put(C,3)
evicts exactly B: get(B) misses, get(A) = 1, get(C) = 3, and exactly one
eviction was counted — the hit on A moved it to the most-recent end and the
overflow evicted from the least-recent end. -/
theorem c4_lru_eviction_order :
    scenario_a = Option.some (PyVal.none, PyVal.int 1, PyVal.int 3, 1) := rfl

/-! Claim C5: the capacity-accounting invariant (code bug in lazy expiry). -/

/-- Configuration for the lazy-expiry accounting run: every value probes at
5 bytes. -/
def cfgAccounting : CacheConfig :=
  { max_size := 10, max_memory := 1000000, strategy := CacheStrategy.lru,
    default_ttl := Option.none, calculate_size := fun _ => 5 }

/-- Insert one entry of size 5 with ttl 1 at tick 0, then get it at tick 10
(expired): the lazy-expiry branch of get removes the entry. -/
def lazy_expiry_state : Option CacheState := do
  let (_, s1) ← CacheService.put cfgAccounting 0 "k" (PyVal.int 1) (Option.some 1)
    Option.none emptyState
  let (_, s2) := CacheService.get cfgAccounting 10 "k" s1
  pure s2

/-- C5: the claimed invariant `total_size = sum of stored sizes` is broken
by the source: when `get` discovers an expired entry it decrements
`entry_count` but never subtracts the entry's size, so after the run above
the map is empty (size sum 0, entry_count 0) while `total_size` is still 5. -/
theorem c5_lazy_expiry_leaks_total_size :
    (lazy_expiry_state.map fun s =>
      (s.stats.entry_count, s.stats.total_size, CacheState.sizeSum s, s.cache.length)) =
        Option.some (0, 5, 0, 0) ∧ (5 : Int) ≠ (0 : Int) :=
  ⟨rfl, by decide⟩

/-! Claim C7: no fail-fast validation at construction. -/

/-- C7 counterexample: constructing with maxEntries = 0, negative memory and
a negative default TTL does not raise — the constructor returns a fully
formed instance recording those values verbatim. -/
theorem c7_counterexample_no_fail_fast :
    CacheService.init 0 (-1) CacheStrategy.lru (Option.some (-5)) (fun _ => 1) =
      Except.ok
        ({ max_size := 0, max_memory := -1048576, strategy := CacheStrategy.lru,
           default_ttl := Option.some (-5), calculate_size := fun _ => 1 },
         { cache := [], stats := {} }) := rfl

/-- The configuration obtained by constructing with maxEntries = 0. -/
def cfgZeroEntries : CacheConfig :=
  { max_size := 0, max_memory := 1024 * 1024, strategy := CacheStrategy.lru,
    default_ttl := Option.none, calculate_size := fun _ => 1 }

/-- C7 amended: the constructor performs no validation at all — for every
parameter combination (misuse included) it returns a usable-looking instance
with the parameters recorded and an empty map; the misuse only manifests
later: with maxEntries = 0 the first capacity loop of a non-oversized put
never reaches its exit condition for any fuel, so put diverges. -/
theorem c7_constructor_accepts_misuse :
    (∀ (ms mm : Int) (st : CacheStrategy) (ttl : Option Int) (f : PyVal → Nat),
      CacheService.init ms mm st ttl f =
        Except.ok
          ({ max_size := ms, max_memory := mm * 1024 * 1024, strategy := st,
             default_ttl := ttl, calculate_size := f },
           { cache := [], stats := {} })) ∧
    (∀ fuel, capLoop1 cfgZeroEntries 0 fuel emptyState = Option.none) ∧
    (∀ v, CacheService.put cfgZeroEntries 0 "k" v Option.none Option.none emptyState =
      Option.none) := by
  refine ⟨fun ms mm st ttl f => rfl, ?_, fun v => rfl⟩
  intro fuel
  induction fuel with
  | zero => rfl
  | succ n ih =>
      simpa [capLoop1, CacheService.evict_one, emptyState, cfgZeroEntries] using ih

/-! Claim C2: hash normalization and sensitivity. -/

theorem string_append_cancel_right {a b c : String} (h : a ++ c = b ++ c) : a = b := by
  apply string_eq_of_data
  have hd := congrArg String.data h
  rw [string_data_append, string_data_append] at hd
  exact List.append_cancel_right hd

theorem string_append_cancel_left {a b c : String} (h : c ++ a = c ++ b) : a = b := by
  apply string_eq_of_data
  have hd := congrArg String.data h
  rw [string_data_append, string_data_append] at hd
  exact List.append_cancel_left hd

/-- C2 counterexample: the hashed fields are concatenated without any
separator, so two calls that differ in BOTH the normalized query and the
model name can produce the same hash: query "ab" with model "c" collides
with query "a" with model "bc" (same context and params), refuting "for any
two calls whose normalized query, model name, context, or extra params
differ, the resulting hashes differ". -/
theorem c2_counterexample_concatenation_collision :
    QueryCache.get_query_hash "ab" "c" "" Option.none =
        QueryCache.get_query_hash "a" "bc" "" Option.none ∧
      pyLower (pyStrip "ab") ≠ pyLower (pyStrip "a") ∧
      ("ab" : String) ≠ "a" ∧ ("c" : String) ≠ "bc" :=
  ⟨rfl, by decide, by decide, by decide⟩

/-- C2 amended: computeHash is invariant under leading/trailing whitespace
and letter case of the query (the P5 instance "Foo?" vs "  foo? " holds for
every model, context and params), and — digests modelled injectively — it is
sensitive to a change of any single logical input while the other inputs are
held fixed: normalized query, model name, or context.  Joint differences
across fields can cancel (see the counterexample), and an extra_params of
None is indistinguishable from an empty params dict (both are falsy), so
sensitivity does not extend to the params field's truthiness. -/
theorem c2_amended_hash_normalization_and_sensitivity :
    (∀ m c p, QueryCache.get_query_hash "Foo?" m c p =
      QueryCache.get_query_hash "  foo? " m c p) ∧
    (∀ q₁ q₂ m c p, pyLower (pyStrip q₁) ≠ pyLower (pyStrip q₂) →
      QueryCache.get_query_hash q₁ m c p ≠ QueryCache.get_query_hash q₂ m c p) ∧
    (∀ q m₁ m₂ c p, m₁ ≠ m₂ →
      QueryCache.get_query_hash q m₁ c p ≠ QueryCache.get_query_hash q m₂ c p) ∧
    (∀ q m c₁ c₂ p, c₁ ≠ c₂ →
      QueryCache.get_query_hash q m c₁ p ≠ QueryCache.get_query_hash q m c₂ p) ∧
    (∀ q m c, QueryCache.get_query_hash q m c Option.none =
      QueryCache.get_query_hash q m c (Option.some [])) := by
  refine ⟨fun m c p => rfl, ?_, ?_, ?_, fun q m c => rfl⟩
  · intro q₁ q₂ m c p hne heq
    exact hne (string_append_cancel_right (string_append_cancel_right
      (string_append_cancel_right heq)))
  · intro q m₁ m₂ c p hne heq
    exact hne (string_append_cancel_left (string_append_cancel_right
      (string_append_cancel_right heq)))
  · intro q m c₁ c₂ p hne heq
    have hctx : (if c₁ = "" then "" else md5_hexdigest c₁) =
        (if c₂ = "" then "" else md5_hexdigest c₂) :=
      string_append_cancel_left (string_append_cancel_right heq)
    rcases eq_or_ne c₁ "" with h1 | h1 <;> rcases eq_or_ne c₂ "" with h2 | h2
    · exact hne (h1.trans h2.symm)
    · rw [if_pos h1, if_neg h2] at hctx
      exact h2 (hctx.symm.trans rfl)
    · rw [if_neg h1, if_pos h2] at hctx
      exact h1 (hctx.trans rfl)
    · rw [if_neg h1, if_neg h2] at hctx
      exact hne hctx

theorem c2_amended_hash_witness :
    QueryCache.get_query_hash "Foo?" "modelA" "ctx" Option.none =
        QueryCache.get_query_hash "  foo? " "modelA" "ctx" Option.none ∧
      QueryCache.get_query_hash "qa" "m" "c" Option.none ≠
        QueryCache.get_query_hash "qb" "m" "c" Option.none ∧
      QueryCache.get_query_hash "q" "m1" "c" Option.none ≠
        QueryCache.get_query_hash "q" "m2" "c" Option.none ∧
      QueryCache.get_query_hash "q" "m" "c1" Option.none ≠
        QueryCache.get_query_hash "q" "m" "c2" Option.none :=
  ⟨c2_amended_hash_normalization_and_sensitivity.1 "modelA" "ctx" Option.none,
   c2_amended_hash_normalization_and_sensitivity.2.1 "qa" "qb" "m" "c" Option.none (by decide),
   c2_amended_hash_normalization_and_sensitivity.2.2.1 "q" "m1" "m2" "c" Option.none
     (by decide),
   c2_amended_hash_normalization_and_sensitivity.2.2.2.1 "q" "m" "c1" "c2" Option.none
     (by decide)⟩

/-! Claim C6: termination of the capacity loops for max_size >= 1. -/

theorem alookup_isSome_of_mem {β : Type} {l : List (String × β)} {k : String} {v : β}
    (h : (k, v) ∈ l) : (alookup l k).isSome = true := by
  induction l with
  | nil => simp at h
  | cons q rest ih =>
      rcases List.mem_cons.mp h with heq | hmem
      · rw [← heq]
        simp [alookup]
      · obtain ⟨k', v'⟩ := q
        by_cases hk : k' = k
        · simp [alookup, hk]
        · rw [alookup_cons_ne hk]
          exact ih hmem

theorem aerase_length {β : Type} {l : List (String × β)} {k : String}
    (h : (alookup l k).isSome = true) : (aerase l k).length + 1 = l.length := by
  induction l with
  | nil => simp [alookup] at h
  | cons q rest ih =>
      obtain ⟨k', v'⟩ := q
      by_cases hk : k' = k
      · simp [aerase, hk]
      · rw [alookup_cons_ne hk] at h
        rw [aerase_cons_ne hk]
        have := ih h
        simp only [List.length_cons]
        omega

theorem lfu_victim_mem :
    ∀ {l : List (String × CacheEntry)} {p : String × CacheEntry},
      lfu_victim l = Option.some p → p ∈ l := by
  intro l
  induction l with
  | nil => intro p h; simp [lfu_victim] at h
  | cons q rest ih =>
      intro p h
      obtain ⟨k, e⟩ := q
      rw [lfu_victim] at h
      cases hrec : lfu_victim rest with
      | none =>
          rw [hrec] at h
          cases h
          exact List.mem_cons_self _ _
      | some q' =>
          obtain ⟨k', e'⟩ := q'
          rw [hrec] at h
          have h' : (if e'.access_count < e.access_count then Option.some (k', e')
              else Option.some (k, e)) = Option.some p := h
          by_cases hlt : e'.access_count < e.access_count
          · rw [if_pos hlt] at h'
            cases h'
            exact List.mem_cons_of_mem _ (ih hrec)
          · rw [if_neg hlt] at h'
            cases h'
            exact List.mem_cons_self _ _

theorem lfu_victim_cons_isSome (k : String) (e : CacheEntry)
    (rest : List (String × CacheEntry)) :
    (lfu_victim ((k, e) :: rest)).isSome = true := by
  rw [lfu_victim]
  cases lfu_victim rest with
  | none => rfl
  | some q =>
      obtain ⟨k', e'⟩ := q
      by_cases h : e'.access_count < e.access_count <;> simp [h]

/-- One eviction on a non-empty cache removes exactly one entry, whatever
the strategy. -/
theorem evict_one_length (cfg : CacheConfig) (now : Nat) :
    ∀ s : CacheState, s.cache ≠ [] →
      (CacheService.evict_one cfg now s).cache.length + 1 = s.cache.length := by
  rintro ⟨cache, stats⟩ h
  cases cache with
  | nil => exact absurd rfl h
  | cons p rest =>
      obtain ⟨k0, e0⟩ := p
      simp only [CacheService.evict_one]
      cases hst : cfg.strategy
      · simp [aerase_cons_self]
      · have hs := lfu_victim_cons_isSome k0 e0 rest
        obtain ⟨q, hq⟩ := Option.isSome_iff_exists.mp hs
        have hmem := lfu_victim_mem hq
        have hlook : (alookup ((k0, e0) :: rest) q.1).isSome = true := by
          obtain ⟨qk, qe⟩ := q
          exact alookup_isSome_of_mem hmem
        simp only [hq, Option.getD_some]
        have := aerase_length hlook
        simp only [List.length_cons] at this ⊢
        omega
      · simp [aerase_cons_self]
      · cases hf : List.find? (fun p => p.2.is_expired now) ((k0, e0) :: rest) with
        | none => simp [hf, aerase_cons_self]
        | some q =>
            have hmem := List.mem_of_find?_eq_some hf
            have hlook : (alookup ((k0, e0) :: rest) q.1).isSome = true := by
              obtain ⟨qk, qe⟩ := q
              exact alookup_isSome_of_mem hmem
            simp only [hf]
            have := aerase_length hlook
            simp only [List.length_cons] at this ⊢
            omega

theorem capLoop1_terminates (cfg : CacheConfig) (now : Nat) (hms : 1 ≤ cfg.max_size) :
    ∀ (fuel : Nat) (s : CacheState), s.cache.length ≤ fuel →
      ∃ s', capLoop1 cfg now fuel s = Option.some s' ∧
        (s'.cache.length : Int) < cfg.max_size ∧ s'.cache.length ≤ s.cache.length := by
  intro fuel
  induction fuel with
  | zero =>
      intro s hlen
      have hnil : s.cache = [] := List.length_eq_zero.mp (Nat.le_zero.mp hlen)
      refine ⟨s, ?_, ?_, Nat.le_refl _⟩
      · rw [capLoop1, if_neg]
        rw [hnil]
        simpa using Int.lt_of_lt_of_le Int.zero_lt_one hms
      · rw [hnil]
        simpa using Int.lt_of_lt_of_le Int.zero_lt_one hms
  | succ n ih =>
      intro s hlen
      by_cases hc : (s.cache.length : Int) ≥ cfg.max_size
      · have hne : s.cache ≠ [] := by
          intro hnil
          rw [hnil] at hc
          simp at hc
          omega
        have hstep := evict_one_length cfg now s hne
        have hlen' : (CacheService.evict_one cfg now s).cache.length ≤ n := by omega
        obtain ⟨s', h1, h2, h3⟩ := ih (CacheService.evict_one cfg now s) hlen'
        refine ⟨s', ?_, h2, by omega⟩
        rw [capLoop1, if_pos hc]
        exact h1
      · refine ⟨s, ?_, by omega, Nat.le_refl _⟩
        rw [capLoop1, if_neg hc]

theorem capLoop2_terminates (cfg : CacheConfig) (now : Nat) (newSize : Nat) :
    ∀ (fuel : Nat) (s : CacheState), s.cache.length ≤ fuel →
      ∃ s', capLoop2 cfg now newSize fuel s = Option.some s' ∧
        (s'.cache = [] ∨ s'.stats.total_size + (newSize : Int) ≤ cfg.max_memory) ∧
        s'.cache.length ≤ s.cache.length := by
  intro fuel
  induction fuel with
  | zero =>
      intro s hlen
      have hnil : s.cache = [] := List.length_eq_zero.mp (Nat.le_zero.mp hlen)
      refine ⟨s, ?_, Or.inl hnil, Nat.le_refl _⟩
      rw [capLoop2, if_neg]
      rw [hnil]
      simp
  | succ n ih =>
      intro s hlen
      by_cases hc : s.stats.total_size + (newSize : Int) > cfg.max_memory ∧
          s.cache.isEmpty = false
      · have hne : s.cache ≠ [] := by
          intro hnil
          rw [hnil] at hc
          simp at hc
        have hstep := evict_one_length cfg now s hne
        have hlen' : (CacheService.evict_one cfg now s).cache.length ≤ n := by omega
        obtain ⟨s', h1, h2, h3⟩ := ih (CacheService.evict_one cfg now s) hlen'
        refine ⟨s', ?_, h2, by omega⟩
        rw [capLoop2, if_pos hc]
        exact h1
      · refine ⟨s, ?_, ?_, Nat.le_refl _⟩
        · rw [capLoop2, if_neg hc]
        · cases hnil : s.cache with
          | nil => exact Or.inl rfl
          | cons p rest =>
              right
              by_contra hmem
          -- from not-condition and a non-empty cache, the memory bound holds
              apply hc
              constructor
              · omega
              · rw [hnil]
                rfl

/-- C6: for every configuration with maxEntries >= 1, the capacity loop of
a non-oversized put terminates: `ensure_capacity` returns a state whose
entry count is strictly below maxEntries and which either satisfies the
memory bound or is completely empty (the loop stops at an empty cache even
when the incoming item still does not fit); moreover each loop iteration
evicts exactly one victim (every eviction on a non-empty cache removes
exactly one entry). -/
theorem c6_ensure_capacity_terminates (cfg : CacheConfig) (now : Nat) (newSize : Nat)
    (s : CacheState) (hms : 1 ≤ cfg.max_size) :
    (∃ s', CacheService.ensure_capacity cfg now newSize s = Option.some s' ∧
        (s'.cache.length : Int) < cfg.max_size ∧
        (s'.cache = [] ∨ s'.stats.total_size + (newSize : Int) ≤ cfg.max_memory)) ∧
    (∀ t : CacheState, t.cache ≠ [] →
        (CacheService.evict_one cfg now t).cache.length + 1 = t.cache.length) := by
  constructor
  · obtain ⟨s1, h1, h2, h3⟩ :=
      capLoop1_terminates cfg now hms (s.cache.length + 1) s (Nat.le_succ _)
    obtain ⟨s2, g1, g2, g3⟩ :=
      capLoop2_terminates cfg now newSize (s1.cache.length + 1) s1 (Nat.le_succ _)
    refine ⟨s2, ?_, ?_, g2⟩
    · rw [CacheService.ensure_capacity, h1]
      exact g1
    · have : (s2.cache.length : Int) ≤ (s1.cache.length : Int) := by
        exact_mod_cast g3
      omega
  · exact fun t ht => evict_one_length cfg now t ht

theorem c6_ensure_capacity_witness :
    ∃ s', CacheService.ensure_capacity cfgScenarioA 0 4 emptyState = Option.some s' ∧
      (s'.cache.length : Int) < cfgScenarioA.max_size ∧
      (s'.cache = [] ∨ s'.stats.total_size + (4 : Int) ≤ cfgScenarioA.max_memory) :=
  (c6_ensure_capacity_terminates cfgScenarioA 0 4 emptyState (by decide)).1

/-! Claim C8: persistence round-trip. -/

/-- Entries the load loop keeps, in order: each saved entry reconstructed
and retained unless already expired at the loading clock. -/
def kept_reloads (cfg : CacheConfig) (now : Nat) :
    List (String × SavedEntry) → List (String × CacheEntry)
  | [] => []
  | p :: rest =>
      if (reload_entry cfg p.1 p.2).is_expired now then kept_reloads cfg now rest
      else (p.1, reload_entry cfg p.1 p.2) :: kept_reloads cfg now rest

/-- Characterization of the load fold: it appends exactly the kept entries
and adds their count and total size to the accumulator's counters. -/
theorem load_fold_spec (cfg : CacheConfig) (now : Nat) :
    ∀ (l : List (String × SavedEntry)) (acc : CacheState),
      l.foldl (load_step cfg now) acc =
        { cache := acc.cache ++ kept_reloads cfg now l,
          stats := { acc.stats with
            entry_count := acc.stats.entry_count + ((kept_reloads cfg now l).length : Int),
            total_size := acc.stats.total_size + listSizeSum (kept_reloads cfg now l) } } := by
  intro l
  induction l with
  | nil =>
      intro acc
      simp [kept_reloads, listSizeSum]
  | cons p rest ih =>
      intro acc
      rw [List.foldl_cons, ih]
      by_cases hexp : (reload_entry cfg p.1 p.2).is_expired now
      · simp [load_step, kept_reloads, hexp]
      · simp only [load_step, kept_reloads, if_neg hexp]
        rw [CacheState.mk.injEq]
        constructor
        · simp [List.append_assoc]
        · rw [CacheStats.mk.injEq]
          refine ⟨?_, ?_, rfl, rfl, rfl, rfl⟩
          · rw [listSizeSum]
            ring
          · rw [List.length_cons]
            push_cast
            ring

/-- Reconstruction preserves the expiry clock data, so a reloaded entry is
expired exactly when the original was. -/
theorem reload_is_expired (cfg : CacheConfig) (now : Nat) (k : String) (e : CacheEntry) :
    (reload_entry cfg k (save_entry e)).is_expired now = e.is_expired now := rfl

/-- What load keeps out of what save wrote: exactly the entries unexpired
at both clocks, reconstructed with recomputed sizes. -/
theorem kept_reloads_of_save (cfg : CacheConfig) (nowS nowL : Nat) :
    ∀ l : List (String × CacheEntry),
      kept_reloads cfg nowL
          ((l.filter (fun p => !(p.2.is_expired nowS))).map (fun p => (p.1, save_entry p.2))) =
        (l.filter (fun p => !(p.2.is_expired nowS) && !(p.2.is_expired nowL))).map
          (fun p => (p.1, reload_entry cfg p.1 (save_entry p.2))) := by
  intro l
  induction l with
  | nil => rfl
  | cons p rest ih =>
      cases h1 : p.2.is_expired nowS with
      | true => simp [List.filter_cons, h1, ih]
      | false =>
          cases h2 : p.2.is_expired nowL with
          | true => simp [List.filter_cons, h1, h2, kept_reloads, reload_is_expired, ih]
          | false => simp [List.filter_cons, h1, h2, kept_reloads, reload_is_expired, ih]

theorem mem_of_alookup_eq_some {β : Type} {l : List (String × β)} {k : String} {v : β}
    (h : alookup l k = Option.some v) : (k, v) ∈ l := by
  induction l with
  | nil => simp [alookup] at h
  | cons q rest ih =>
      obtain ⟨k', v'⟩ := q
      by_cases hk : k' = k
      · subst hk
        rw [alookup_cons_self] at h
        cases h
        exact List.mem_cons_self _ _
      · rw [alookup_cons_ne hk] at h
        exact List.mem_cons_of_mem _ (ih h)

theorem alookup_eq_some_of_mem_nodup {β : Type} {l : List (String × β)} {k : String} {v : β}
    (hmem : (k, v) ∈ l) (hnd : (l.map Prod.fst).Nodup) : alookup l k = Option.some v := by
  induction l with
  | nil => simp at hmem
  | cons q rest ih =>
      obtain ⟨k', v'⟩ := q
      rw [List.map_cons, List.nodup_cons] at hnd
      rcases List.mem_cons.mp hmem with heq | hmem'
      · cases heq
        exact alookup_cons_self _ _ _
      · have hk : k' ≠ k := by
          intro he
          subst he
          exact hnd.1 (List.mem_map.mpr ⟨(k', v), hmem', rfl⟩)
        rw [alookup_cons_ne hk]
        exact ih hmem' hnd.2

theorem kept_reloads_unexpired (cfg : CacheConfig) (now : Nat) :
    ∀ (l : List (String × SavedEntry)) (k : String) (e : CacheEntry),
      (k, e) ∈ kept_reloads cfg now l → e.is_expired now = false := by
  intro l
  induction l with
  | nil => intro k e h; simp [kept_reloads] at h
  | cons p rest ih =>
      intro k e h
      rw [kept_reloads] at h
      split at h
      next hexp => exact ih k e h
      next hexp =>
        rcases List.mem_cons.mp h with heq | hmem
        · have he : e = reload_entry cfg p.1 p.2 := congrArg Prod.snd heq
          rw [he]
          simpa using hexp
        · exact ih k e hmem

/-- C8: round-trip through save at tick `nowS` and a fresh load at tick
`nowL`.  The loaded map is exactly the original entries unexpired at both
clocks, reconstructed with `size` recomputed from the value; `entry_count`
equals the number of such entries; every such entry is retrievable through
`get` with its identical original value; and no entry that is already
expired at load time is ever restored. -/
theorem c8_persistence_round_trip (cfg : CacheConfig) (s : CacheState) (nowS nowL : Nat)
    (hnd : (s.cache.map Prod.fst).Nodup) :
    (CacheService.load_cache cfg nowL (CacheService.save_cache nowS s) emptyState).cache =
        (s.cache.filter (fun p => !(p.2.is_expired nowS) && !(p.2.is_expired nowL))).map
          (fun p => (p.1, reload_entry cfg p.1 (save_entry p.2))) ∧
    (CacheService.load_cache cfg nowL (CacheService.save_cache nowS s)
        emptyState).stats.entry_count =
      ((s.cache.filter
          (fun p => !(p.2.is_expired nowS) && !(p.2.is_expired nowL))).length : Int) ∧
    (∀ k e, (k, e) ∈ s.cache → e.is_expired nowS = false → e.is_expired nowL = false →
      alookup (CacheService.load_cache cfg nowL (CacheService.save_cache nowS s)
          emptyState).cache k = Option.some (reload_entry cfg k (save_entry e)) ∧
      (CacheService.get cfg nowL k
          (CacheService.load_cache cfg nowL (CacheService.save_cache nowS s) emptyState)).1 =
        e.value ∧
      (reload_entry cfg k (save_entry e)).size = cfg.calculate_size e.value) ∧
    (∀ k e', alookup (CacheService.load_cache cfg nowL (CacheService.save_cache nowS s)
        emptyState).cache k = Option.some e' → e'.is_expired nowL = false) := by
  have hA0 : (CacheService.load_cache cfg nowL (CacheService.save_cache nowS s)
      emptyState).cache =
        kept_reloads cfg nowL (CacheService.save_cache nowS s).entries := by
    simp only [CacheService.load_cache]
    rw [load_fold_spec]
    simp [emptyState]
  have hA : (CacheService.load_cache cfg nowL (CacheService.save_cache nowS s)
      emptyState).cache =
        (s.cache.filter (fun p => !(p.2.is_expired nowS) && !(p.2.is_expired nowL))).map
          (fun p => (p.1, reload_entry cfg p.1 (save_entry p.2))) := by
    rw [hA0]
    show kept_reloads cfg nowL
        ((s.cache.filter (fun p => !(p.2.is_expired nowS))).map
          (fun p => (p.1, save_entry p.2))) = _
    exact kept_reloads_of_save cfg nowS nowL s.cache
  have hndL : ((CacheService.load_cache cfg nowL (CacheService.save_cache nowS s)
      emptyState).cache.map Prod.fst).Nodup := by
    rw [hA, List.map_map]
    have hfst : (Prod.fst ∘ fun p : String × CacheEntry =>
        (p.1, reload_entry cfg p.1 (save_entry p.2))) = Prod.fst := by
      funext p
      rfl
    rw [hfst]
    exact ((List.filter_sublist _).map Prod.fst).nodup hnd
  refine ⟨hA, ?_, ?_, ?_⟩
  · simp only [CacheService.load_cache]
    rw [load_fold_spec]
    simp only [emptyState]
    show (0 : Int) + _ = _
    rw [Int.zero_add]
    show ((kept_reloads cfg nowL
        ((s.cache.filter (fun p => !(p.2.is_expired nowS))).map
          (fun p => (p.1, save_entry p.2)))).length : Int) = _
    rw [kept_reloads_of_save cfg nowS nowL s.cache, List.length_map]
  · intro k e hmem hS hL
    have hfmem : (k, e) ∈ s.cache.filter
        (fun p => !(p.2.is_expired nowS) && !(p.2.is_expired nowL)) :=
      List.mem_filter.mpr ⟨hmem, by simp [hS, hL]⟩
    have hmmem : (k, reload_entry cfg k (save_entry e)) ∈
        (s.cache.filter (fun p => !(p.2.is_expired nowS) && !(p.2.is_expired nowL))).map
          (fun p => (p.1, reload_entry cfg p.1 (save_entry p.2))) :=
      List.mem_map_of_mem _ hfmem
    have hlook : alookup (CacheService.load_cache cfg nowL
        (CacheService.save_cache nowS s) emptyState).cache k =
          Option.some (reload_entry cfg k (save_entry e)) := by
      rw [hA] at hndL ⊢
      exact alookup_eq_some_of_mem_nodup hmmem hndL
    refine ⟨hlook, ?_, rfl⟩
    simp only [CacheService.get, hlook, reload_is_expired, hL]
    rfl
  · intro k e' hlook
    have hmemL := mem_of_alookup_eq_some hlook
    rw [hA0] at hmemL
    exact kept_reloads_unexpired cfg nowL _ k e' hmemL

/-- One of the three non-expiring entries of the Scenario C witness run. -/
def scenC_entry (k : String) (v : PyVal) : CacheEntry :=
  { key := k, value := v, created_at := 0, last_accessed := 0, access_count := 0,
    ttl := Option.none, size := 5, metadata := [] }

/-- Scenario C starting cache: three non-expiring entries. -/
def scenC_state : CacheState :=
  { cache := [("k1", scenC_entry "k1" (PyVal.int 1)),
              ("k2", scenC_entry "k2" (PyVal.int 2)),
              ("k3", scenC_entry "k3" (PyVal.int 3))],
    stats := { entry_count := 3, total_size := 15 } }

theorem c8_persistence_round_trip_witness :
    (CacheService.load_cache cfgAccounting 10 (CacheService.save_cache 0 scenC_state)
        emptyState).stats.entry_count = 3 ∧
    (CacheService.get cfgAccounting 10 "k2"
        (CacheService.load_cache cfgAccounting 10 (CacheService.save_cache 0 scenC_state)
          emptyState)).1 = PyVal.int 2 := by
  have h := c8_persistence_round_trip cfgAccounting scenC_state 0 10 (by decide)
  refine ⟨?_, ?_⟩
  · rw [h.2.1]
    rfl
  · exact (h.2.2.1 "k2" (scenC_entry "k2" (PyVal.int 2))
      (by simp [scenC_state]) rfl rfl).2.1

/-! Claim C10: falsy payloads are indistinguishable from misses. -/

/-- C10: the public read interface collapses absent keys, expired entries
and a stored `None` payload into the same `None` result: `CacheService.get`
returns `PyVal.none` when the key is absent, when the entry is expired, and
when the stored value itself is `None` — still counting a hit in the last
case; `QueryCache.get_query_result` reports any falsy cached payload as a
miss (returns `None`), and `QueryCache.get_retrieval_result` returns the
underlying payload unchanged, so a falsy payload stays falsy. -/
theorem c10_falsy_payload_indistinguishable_from_miss (cfg : CacheConfig) (now : Nat) :
    (∀ k s, alookup s.cache k = Option.none →
      (CacheService.get cfg now k s).1 = PyVal.none) ∧
    (∀ k s e, alookup s.cache k = Option.some e → e.is_expired now = true →
      (CacheService.get cfg now k s).1 = PyVal.none) ∧
    (∀ k s e, alookup s.cache k = Option.some e → e.is_expired now = false →
      e.value = PyVal.none →
      (CacheService.get cfg now k s).1 = PyVal.none ∧
      (CacheService.get cfg now k s).2.stats.hit_count = s.stats.hit_count + 1) ∧
    (∀ q m c p s, (CacheService.get cfg now
        ("query:" ++ QueryCache.get_query_hash q m c p) s).1.truthy = false →
      (QueryCache.get_query_result cfg now q m c p s).1 = Option.none) ∧
    (∀ q s, (QueryCache.get_retrieval_result cfg now q s).1 =
      (CacheService.get cfg now
        ("retrieval:" ++ sha256_hexdigest (pyLower (pyStrip q))) s).1) := by
  refine ⟨?_, ?_, ?_, ?_, fun q s => rfl⟩
  · intro k s h
    simp [CacheService.get, h]
  · intro k s e h hexp
    simp [CacheService.get, h, hexp]
  · intro k s e h hexp hval
    constructor
    · simp [CacheService.get, h, hexp, hval]
    · simp [CacheService.get, h, hexp]
  · intro q m c p s h
    simp [QueryCache.get_query_result, h]

/-- An entry created at tick 0 with ttl 1: expired by tick 10. -/
def w10_expired_entry : CacheEntry :=
  { key := "k", value := PyVal.int 5, created_at := 0, last_accessed := 0,
    access_count := 0, ttl := Option.some 1, size := 5, metadata := [] }

/-- State holding a single already-expired entry. -/
def w10_expired : CacheState :=
  { cache := [("k", w10_expired_entry)], stats := {} }

/-- A live, non-expiring entry whose stored payload is `None`. -/
def w10_none_entry : CacheEntry :=
  { key := "n", value := PyVal.none, created_at := 0, last_accessed := 0,
    access_count := 0, ttl := Option.none, size := 5, metadata := [] }

/-- State holding a single live entry whose stored payload is `None`. -/
def w10_none_payload : CacheState :=
  { cache := [("n", w10_none_entry)], stats := {} }

theorem c10_falsy_payload_witness :
    (CacheService.get cfgAccounting 10 "absent" emptyState).1 = PyVal.none ∧
    (CacheService.get cfgAccounting 10 "k" w10_expired).1 = PyVal.none ∧
    ((CacheService.get cfgAccounting 10 "n" w10_none_payload).1 = PyVal.none ∧
      (CacheService.get cfgAccounting 10 "n" w10_none_payload).2.stats.hit_count =
        w10_none_payload.stats.hit_count + 1) ∧
    (QueryCache.get_query_result cfgAccounting 10 "q" "m" "" Option.none emptyState).1 =
      Option.none :=
  ⟨(c10_falsy_payload_indistinguishable_from_miss cfgAccounting 10).1 "absent" emptyState rfl,
   (c10_falsy_payload_indistinguishable_from_miss cfgAccounting 10).2.1 "k" w10_expired
     w10_expired_entry rfl rfl,
   (c10_falsy_payload_indistinguishable_from_miss cfgAccounting 10).2.2.1 "n"
     w10_none_payload w10_none_entry rfl rfl rfl,
   (c10_falsy_payload_indistinguishable_from_miss cfgAccounting 10).2.2.2.1 "q" "m" ""
     Option.none emptyState rfl⟩

/-! Claim C1: cache/get/invalidate round trip through the query cache. -/

/-- Configuration used by the query-cache runs: roomy limits, LRU, every
value probing at 1 byte. -/
def cfgQuery : CacheConfig :=
  { max_size := 1000, max_memory := 100 * 1024 * 1024, strategy := CacheStrategy.lru,
    default_ttl := Option.none, calculate_size := fun _ => 1 }

/-- Scenario D exactly as the spec words it: cacheResult with the non-empty
context "ctx", then getResult and invalidate without a context argument. -/
def c1_counter_run : Option (Bool × Option QueryCacheEntry × Bool) := do
  let (ok, s1) ← QueryCache.cache_query_result cfgQuery 0 "What is RAG?" "resp" []
    "ctx" "modelA" 0 Option.none Option.none emptyState
  let r1 := QueryCache.get_query_result cfgQuery 0 "What is RAG?" "modelA" "" Option.none s1
  let (inv, _) := QueryCache.invalidate_query cfgQuery "What is RAG?" "modelA" r1.2
  pure (ok, r1.1, inv)

set_option maxHeartbeats 2000000 in
/-- C1 counterexample: after a successful cacheResult with the non-empty
context "ctx", getResult(query, model) without a context is already a MISS
(the stored key hashes the context, the lookup key does not), and
invalidate(query, model) deletes nothing (returns false) — refuting the
claimed non-miss-then-miss round trip for non-empty contexts. -/
theorem c1_counterexample_context_asymmetry :
    c1_counter_run = Option.some (true, Option.none, false) := rfl

/-- Full round trip with the EMPTY context: cacheResult succeeds, getResult
hits, invalidate deletes, getResult misses. -/
def c1_pipeline (q m resp : String) (chunks : List PyVal) :
    Option (Bool × Bool × Bool × Bool) := do
  let (ok, s1) ← QueryCache.cache_query_result cfgQuery 0 q resp chunks "" m 0
    Option.none Option.none emptyState
  let r1 := QueryCache.get_query_result cfgQuery 0 q m "" Option.none s1
  let (inv, s2) := QueryCache.invalidate_query cfgQuery q m r1.2
  let r2 := QueryCache.get_query_result cfgQuery 0 q m "" Option.none s2
  pure (ok, r1.1.isSome, inv, r2.1.isSome)

set_option maxHeartbeats 4000000 in
/-- C1 amended: the claimed round trip holds when the cached context is the
EMPTY string (then the stored keys agree with the keys getResult and
invalidate recompute): for every query and model, cacheResult succeeds,
getResult(q, m) returns a non-miss entry, invalidate(q, m) returns true
after deleting both the query-result and the retrieval-result entry, and
getResult(q, m) afterwards is a miss.  With a non-empty context the stored
keys include the context hash, so getResult and invalidate called without
that context never see the entry (see the counterexample). -/
theorem c1_amended_invalidation_round_trip (q m resp : String) (chunks : List PyVal) :
    c1_pipeline q m resp chunks = Option.some (true, true, true, false) := by
  have hne : ("query:" ++ QueryCache.get_query_hash q m "" Option.none) ≠
      ("retrieval:" ++ QueryCache.get_query_hash q m "" Option.none) :=
    query_key_ne_retrieval_key _ _
  have hne' : ("retrieval:" ++ QueryCache.get_query_hash q m "" Option.none) ≠
      ("query:" ++ QueryCache.get_query_hash q m "" Option.none) := hne.symm
  simp [c1_pipeline, QueryCache.cache_query_result, QueryCache.get_query_result,
    QueryCache.invalidate_query, CacheService.put, CacheService.get, CacheService.delete,
    CacheService.ensure_capacity, capLoop1, capLoop2, move_to_end, aupdate, aerase, alookup,
    pyOrTtl, pyOrInt, rebuild_query_entry, dictGet, PyVal.truthy, CacheEntry.is_expired,
    emptyState, cfgQuery, hne, hne']

/-! Claim C9: default TTL of the secondary retrieval record. -/

/-- Key of the secondary retrieval record written by cache_query_result. -/
def retrieval_key_of (q m c : String) : String :=
  "retrieval:" ++ QueryCache.get_query_hash q m c Option.none

/-- One cacheResult call with the ttl argument omitted, observing the
stored retrieval record's ttl and payload. -/
def c9_pipeline (q resp : String) (chunks : List PyVal) (c m : String) :
    Option (Bool × Option (Option Int × PyVal)) := do
  let (ok, s1) ← QueryCache.cache_query_result cfgQuery 0 q resp chunks c m 0
    Option.none Option.none emptyState
  pure (ok, (alookup s1.cache (retrieval_key_of q m c)).map (fun e => (e.ttl, e.value)))

/-- One standalone cache_retrieval_result call with ttl omitted, observing
the stored ttl. -/
def c9_retrieval_pipeline (q : String) (chunks : List PyVal) (rt : Int) :
    Option (Bool × Option (Option Int)) := do
  let (ok, s1) ← QueryCache.cache_retrieval_result cfgQuery 0 q chunks rt Option.none
    emptyState
  pure (ok, (alookup s1.cache
    ("retrieval:" ++ sha256_hexdigest (pyLower (pyStrip q)))).map (fun e => e.ttl))

set_option maxHeartbeats 2000000 in
/-- C9 counterexample: a successful cacheResult with ttl omitted stores the
lighter retrieval record with ttl 1800 seconds, not the claimed 3600. -/
theorem c9_counterexample_retrieval_ttl_is_1800 :
    c9_pipeline "What is RAG?" "resp" [] "ctx" "modelA" =
      Option.some (true, Option.some (Option.some 1800,
        PyVal.dict [("chunks", PyVal.list []), ("context", PyVal.str "ctx"),
          ("query", PyVal.str "What is RAG?")])) ∧
    Option.some (1800 : Int) ≠ Option.some (3600 : Int) :=
  ⟨rfl, by decide⟩

set_option maxHeartbeats 4000000 in
/-- C9 amended: every successful cacheResult with the ttl argument omitted
additionally stores the lighter `{chunks, context, query}` record under
`"retrieval:" + hash`, but its TTL defaults to 1800 seconds — the same
default as the query-result record; the independent 3600-second default
belongs to the standalone cache_retrieval_result method instead. -/
theorem c9_amended_retrieval_record_default_ttl :
    (∀ q resp chunks c m, c9_pipeline q resp chunks c m =
      Option.some (true, Option.some (Option.some 1800,
        PyVal.dict [("chunks", PyVal.list chunks), ("context", PyVal.str c),
          ("query", PyVal.str q)]))) ∧
    (∀ q chunks rt, c9_retrieval_pipeline q chunks rt =
      Option.some (true, Option.some (Option.some 3600))) := by
  constructor
  · intro q resp chunks c m
    have hne : ("query:" ++ QueryCache.get_query_hash q m c Option.none) ≠
        ("retrieval:" ++ QueryCache.get_query_hash q m c Option.none) :=
      query_key_ne_retrieval_key _ _
    simp [c9_pipeline, retrieval_key_of, QueryCache.cache_query_result, CacheService.put,
      CacheService.ensure_capacity, capLoop1, capLoop2, alookup, aerase, pyOrTtl, pyOrInt,
      emptyState, cfgQuery, hne, Ne.symm hne]
  · intro q chunks rt
    simp [c9_retrieval_pipeline, QueryCache.cache_retrieval_result, CacheService.put,
      CacheService.ensure_capacity, capLoop1, capLoop2, alookup, aerase, pyOrTtl, pyOrInt,
      emptyState, cfgQuery]
